import Mathlib

/-!
Shallow embedding of `src/mini_kconfig.py` (the symbol graph, the resolution
pass, the dependency fixup, the selection engine and the output writer).

Modelling conventions:
* Every `Symbol` object is registered in `Symbol.all_symbols` under its unique
  name at construction time and never removed, so an object reference is
  modelled by the symbol's name used as a key into the table.  The table
  itself (`Symbol.all_symbols`, a dict) is modelled as an association list in
  insertion order; mutation of a shared object becomes an update of the entry
  under its key.
* Resolved `selects` entries may be Python `None` (when `Symbol.get_symbol`
  does not find the name), hence `selects : List (Option String)`; the parser
  (`add_select`) only ever appends plain token strings, i.e. `some` entries.
* Printed diagnostics are modelled as `Diag` values collected in lists; an
  uncaught Python exception (`AttributeError` on `None`, `IndexError` on `""`)
  is modelled by an `Option` result being `none`.
* `Symbol.select` recurses through `selects` edges without any cycle guard, so
  its model takes a fuel parameter; running out of fuel returns the state
  unchanged (the Python original would still be running).
-/

namespace MiniKconfig

/-- Character with code 39, the apostrophe quote delimiter of the source. -/
def aposChar : Char := Char.ofNat 39

/-- Character with code 34, the quotation-mark delimiter of the source. -/
def quoteChar : Char := Char.ofNat 34

/-- One-character apostrophe string, used by the output header format
string of `write_selected_to`. -/
def aposStr : String := String.mk [aposChar]

/-- Diagnostics printed by the source; modelled as values instead of prints.
Each constructor corresponds to one `print`/`error` call site. -/
inductive Diag where
  | selfDependency (name : String)
  | selfSelect (name : String)
  | symbolNotFound (name : String)
  | stringNoOpen
  | stringNoClose
  | badDefault
deriving DecidableEq, Repr

/-- One `Symbol` object of the source (the fields the claims touch; `name` is
kept outside as the table key, `prompt`/`type`/`options`/provenance carry no
selection semantics). -/
structure Sym where
  dependsOn : List String := []
  selects : List (Option String) := []
  dependants : List String := []
  isSelected : Bool := false
  isSelectable : Bool := false
  isDefault : Bool := false
deriving DecidableEq, Repr

/-- `Symbol.all_symbols`: the symbol table, an insertion-ordered association
list from symbol name to symbol. -/
abbrev State := List (String × Sym)

/-- `Symbol.get_symbol` without its error print: dictionary lookup returning
`none` where the Python version prints the not-found diagnostic and returns
`None`.  Call sites add the diagnostic / crash behaviour. -/
def lookupSym : State → String → Option Sym
  | [], _ => none
  | (m, r) :: rest, n => if m = n then some r else lookupSym rest n

/-- Mutation of the (unique) symbol object registered under key `n`. -/
def updateSym (st : State) (n : String) (f : Sym → Sym) : State :=
  st.map (fun p => if p.1 = n then (p.1, f p.2) else p)

/-- Reading `sym.is_selected` through a reference; a dangling name (which
cannot arise from the source pipeline, every object is in the table) reads
as not selected. -/
def getSelected (st : State) (n : String) : Bool :=
  ((lookupSym st n).map Sym.isSelected).getD false

/-- `Symbol.deselect`: `self.is_selected = False`. -/
def deselect (r : Sym) : Sym := { r with isSelected := false }

/-- `Symbol.make_default` with its default argument `df = True`. -/
def make_default (sym : Sym) (df : Bool) : Sym := { sym with isDefault := df }

/-- The loop `for dep in self.dependants: dep.make_selectable()` inside
`Symbol.select`. -/
def markSelectable (st : State) (deps : List String) : State :=
  deps.foldl (fun s d => updateSym s d (fun r => { r with isSelectable := true })) st

/-- `Symbol.select`: abort if any dependency is unselected, mark every
dependant selectable, re-check the dependencies, set `is_selected`, then
loop over `selects` recursively selecting every entry that is not `None`.
The source has no cycle guard, so the model is bounded by `fuel`; at fuel 0
the state is returned unchanged.  The list fields of the symbol are never
reassigned during selection, so the snapshot read at entry is the list the
Python loops iterate. -/
def select : Nat → State → String → State
  | 0, st, _ => st
  | fuel + 1, st, name =>
    match lookupSym st name with
    | none => st
    | some sym =>
      if sym.dependsOn.all (fun d => getSelected st d) then
        let st1 := markSelectable st sym.dependants
        if sym.dependsOn.all (fun d => getSelected st1 d) then
          let st2 := updateSym st1 name (fun r => { r with isSelected := true })
          sym.selects.foldl
            (fun s osel =>
              match osel with
              | none => s
              | some nm => select fuel s nm) st2
        else st1
      else st

/-- The loop `for sel in self.selects: if sel != None: sel.select()` of
`Symbol.select`, as a named function (the `foldl` inside `select` above). -/
def selectMany (fuel : Nat) (st : State) (sels : List (Option String)) : State :=
  sels.foldl
    (fun s osel =>
      match osel with
      | none => s
      | some nm => select fuel s nm) st

/-- The source line `if dep == self.name:` (and `if sel == self.name:`)
compares the string `dep` with `self.name`, which is the *bound method*
`name` of the symbol, not the string `self.name()`; in Python a string never
compares equal to a method, so the condition is false for every dep. -/
def depMatchesSelfNameMethod (selfName dep : String) : Bool := false

/-- Loop body of `Symbol.resolve_dependencies`: for each name, run the
(never-true) self-comparison, look the name up, register the owner as a
dependant of the target and append the resolved reference.  A missing name
makes `Symbol.get_symbol` return `None` (after printing) and the following
`nd.add_dependant(self)` raises `AttributeError`: modelled as `none`. -/
def resolveDepsLoop (selfName : String) :
    State → List String → List String → List Diag → Option (State × List String × List Diag)
  | st, [], acc, ds => some (st, acc, ds)
  | st, dep :: rest, acc, ds =>
    let ds1 := if depMatchesSelfNameMethod selfName dep then
        ds ++ [Diag.selfDependency selfName] else ds
    match lookupSym st dep with
    | none => none
    | some _ =>
      resolveDepsLoop selfName
        (updateSym st dep (fun r => { r with dependants := r.dependants ++ [selfName] }))
        rest (acc ++ [dep]) ds1

/-- `Symbol.resolve_dependencies` for the symbol registered under `name`;
the final assignment `self.depends_on = new_deps` happens after the loop. -/
def resolve_dependencies (st : State) (name : String) : Option (State × List Diag) :=
  match lookupSym st name with
  | none => some (st, [])
  | some sym =>
    match resolveDepsLoop name st sym.dependsOn [] [] with
    | none => none
    | some (st1, newDeps, ds) =>
      some (updateSym st1 name (fun r => { r with dependsOn := newDeps }), ds)

/-- Loop body of `Symbol.resolve_selects`: run the (never-true)
self-comparison, then append `Symbol.get_symbol(sel)` — which is the
resolved reference when the name is in the table and `None` (after the
not-found print) when it is not.  A `none` input entry cannot arise before
resolution (`add_select` appends only token strings); it is passed through. -/
def resolveSelsLoop (st : State) (selfName : String) :
    List (Option String) → List (Option String) → List Diag → List (Option String) × List Diag
  | [], acc, ds => (acc, ds)
  | none :: rest, acc, ds => resolveSelsLoop st selfName rest (acc ++ [none]) ds
  | some sel :: rest, acc, ds =>
    let ds1 := if depMatchesSelfNameMethod selfName sel then
        ds ++ [Diag.selfSelect selfName] else ds
    match lookupSym st sel with
    | some _ => resolveSelsLoop st selfName rest (acc ++ [some sel]) ds1
    | none => resolveSelsLoop st selfName rest (acc ++ [none]) (ds1 ++ [Diag.symbolNotFound sel])

/-- `Symbol.resolve_selects` for the symbol registered under `name`. -/
def resolve_selects (st : State) (name : String) : State × List Diag :=
  match lookupSym st name with
  | none => (st, [])
  | some sym =>
    let p := resolveSelsLoop st name sym.selects [] []
    (updateSym st name (fun r => { r with selects := p.1 }), p.2)

/-- The iteration of `resolve_symbols` over `Symbol.get_all_symbols()`:
each symbol resolves its dependencies and then its selects. -/
def resolveSymbolsLoop : List String → State → List Diag → Option (State × List Diag)
  | [], st, ds => some (st, ds)
  | n :: rest, st, ds =>
    match resolve_dependencies st n with
    | none => none
    | some (st1, d1) =>
      let p := resolve_selects st1 n
      resolveSymbolsLoop rest p.1 (ds ++ d1 ++ p.2)

/-- `resolve_symbols`: substitute all config names with references. -/
def resolve_symbols (st : State) : Option (State × List Diag) :=
  resolveSymbolsLoop (st.map Prod.fst) st []

/-- `fix_dependencies_for(sym, deplist)`: for each dependency in `deplist`,
if it is not selected, deselect *that dependency* (the `sym` argument is not
used by the body). -/
def fix_dependencies_for (st : State) (deplist : List String) : State :=
  deplist.foldl (fun s dep => if getSelected s dep = false then updateSym s dep deselect else s) st

/-- `fix_dependencies`: for every symbol of the table with a non-empty
dependency list, run `fix_dependencies_for` on its dependencies. -/
def fix_dependencies (st : State) : State :=
  (st.map Prod.fst).foldl
    (fun s name =>
      match lookupSym s name with
      | none => s
      | some sym => if sym.dependsOn ≠ [] then fix_dependencies_for s sym.dependsOn else s)
    st

/-- `select_defaults`: select every symbol whose `is_default` flag is set,
in table order. -/
def select_defaults (fuel : Nat) (st : State) : State :=
  (st.map Prod.fst).foldl
    (fun s name =>
      match lookupSym s name with
      | none => s
      | some sym => if sym.isDefault then select fuel s name else s)
    st

/-- `select_configs(clist)`: `Symbol.get_symbol(cname).select()` for each
name.  For an absent name `get_symbol` prints the not-found diagnostic and
returns `None`, and `None.select()` raises `AttributeError`: modelled as
`none`. -/
def select_configs (fuel : Nat) (st : State) : List String → Option State
  | [] => some st
  | c :: rest =>
    match lookupSym st c with
    | none => none
    | some _ => select_configs fuel (select fuel st c) rest

/-- `Option.parse_default`: `y` calls `make_default()` (df true), `n` calls
`make_default(False)`, anything else only prints a diagnostic. -/
def parse_default (tok : String) (sym : Sym) : Sym × List Diag :=
  if tok = "y" then (make_default sym true, [])
  else if tok = "n" then (make_default sym false, [])
  else (sym, [Diag.badDefault])

/-- The quote-character test `c != apostrophe and c != quotation-mark`
(negated) of `Option.parse_string`. -/
def isQuoteChar (c : Char) : Bool := c = aposChar || c = quoteChar

/-- Python `s.strip` over the two quote characters: remove every leading and
every trailing quote character. -/
def stripQuotes (s : String) : String :=
  String.mk (((s.data.dropWhile isQuoteChar).reverse.dropWhile isQuoteChar).reverse)

/-- `Option.parse_string`: check `s[0]` and `s[len(s)-1]` independently for
being a quote character (apostrophe or quotation mark, not necessarily the
same one); on a violation print a diagnostic, push the current token back and
return the empty string; otherwise return `s` stripped of its quote
characters.  Result: `some (returned string, pushed back?, diagnostics)`;
`none` models the `IndexError` that `s[0]` raises on the empty token. -/
def parse_string (s : String) : Option (String × Bool × List Diag) :=
  match s.data with
  | [] => none
  | c :: cs =>
    if isQuoteChar c = false then some ("", true, [Diag.stringNoOpen])
    else if isQuoteChar ((c :: cs).getLastD c) = false then some ("", true, [Diag.stringNoClose])
    else some (stripQuotes s, false, [])

/-- The first character of a non-empty token is a quote character (the test
of the source's first `if`). -/
def startsQuote (s : String) : Bool :=
  match s.data with
  | [] => false
  | c :: _ => isQuoteChar c

/-- The last character of a non-empty token is a quote character (the test
of the source's second `if`). -/
def endsQuote (s : String) : Bool :=
  match s.data with
  | [] => false
  | c :: cs => isQuoteChar ((c :: cs).getLastD c)

/-- Spec-side predicate, written from the claim text and not from the source,
for comparison with `parse_string`: the token starts and ends with a
*matching* quote character, both apostrophes or both quotation marks. -/
def matchingQuoteDelims (s : String) : Bool :=
  match s.data with
  | [] => false
  | c :: cs => isQuoteChar c && ((c :: cs).getLastD c = c)

/-- The line `f.write("CONFIG_%s=y\n" % name)` of `write_selected_to`. -/
def configLine (name : String) : String := "CONFIG_" ++ name ++ "=y"

/-- The loop of `write_selected_to` over the table keys: look each name up,
and when the symbol is selected, call `select()` on it again and write its
config line.  The state is threaded because that `select()` call mutates the
table mid-iteration.  (A key of the table always looks up successfully.) -/
def writeSelectedLoop (fuel : Nat) : List String → State → List String × State
  | [], st => ([], st)
  | name :: rest, st =>
    match lookupSym st name with
    | none => writeSelectedLoop fuel rest st
    | some sym =>
      if sym.isSelected then
        let st1 := select fuel st name
        let p := writeSelectedLoop fuel rest st1
        (configLine name :: p.1, p.2)
      else
        writeSelectedLoop fuel rest st

/-- `write_selected_to`, modelled as the list of lines written: the header
line `# Configuration '<title>'`, a blank line, then the loop output. -/
def write_selected_to (fuel : Nat) (title : String) (st : State) : List String × State :=
  let p := writeSelectedLoop fuel (st.map Prod.fst) st
  (("# Configuration " ++ aposStr ++ title ++ aposStr) :: "" :: p.1, p.2)

/-! Concrete states used by witnesses, counterexamples and failing-input
evaluations. -/

/-- Fixup example: `A` selected with unselected dependency `B`. -/
def stFix : State :=
  [("A", { dependsOn := ["B"], isSelected := true }), ("B", {})]

/-- Unmet-dependency example: `A` depends on unselected `B` and selects `C`. -/
def stUnmet : State :=
  [("A", { dependsOn := ["B"], selects := [some "C"] }), ("B", {}), ("C", {})]

/-- Cascade example: `A` selects `B`, no dependencies anywhere. -/
def stCascade : State :=
  [("A", { selects := [some "B"] }), ("B", {})]

/-- Self-edge example: `A` depends on and selects itself. -/
def stSelf : State :=
  [("A", { dependsOn := ["A"], selects := [some "A"] })]

/-- Missing-reference example: `A` depends on absent `M`, selects absent `N`. -/
def stMissing : State :=
  [("A", { dependsOn := ["M"], selects := [some "N"] })]

/-- Writer example: selected `A` selects the unselected `B`. -/
def stWrite : State :=
  [("A", { selects := [some "B"], isSelected := true }), ("B", {})]

/-- A symbol whose `is_default` flag is already set. -/
def symDefaultTrue : Sym := { isDefault := true }

/-- The mismatched-quote token: apostrophe, `a`, quotation mark. -/
def mismatchedTok : String := String.mk [aposChar, 'a', quoteChar]

/-! Helper lemmas about the state model. -/

theorem select_zero (st : State) (name : String) : select 0 st name = st := rfl

theorem select_succ (fuel : Nat) (st : State) (name : String) :
    select (fuel + 1) st name =
      match lookupSym st name with
      | none => st
      | some sym =>
        if sym.dependsOn.all (fun d => getSelected st d) then
          let st1 := markSelectable st sym.dependants
          if sym.dependsOn.all (fun d => getSelected st1 d) then
            selectMany fuel (updateSym st1 name (fun r => { r with isSelected := true }))
              sym.selects
          else st1
        else st := rfl

theorem selectMany_nil (fuel : Nat) (st : State) : selectMany fuel st [] = st := rfl

theorem selectMany_cons_none (fuel : Nat) (st : State) (rest : List (Option String)) :
    selectMany fuel st (none :: rest) = selectMany fuel st rest := rfl

theorem selectMany_cons_some (fuel : Nat) (st : State) (nm : String)
    (rest : List (Option String)) :
    selectMany fuel st (some nm :: rest) = selectMany fuel (select fuel st nm) rest := rfl

theorem updateSym_cons (k : String) (r : Sym) (rest : State) (m : String) (f : Sym → Sym) :
    updateSym ((k, r) :: rest) m f =
      (if k = m then (k, f r) else (k, r)) :: updateSym rest m f := rfl

theorem lookupSym_updateSym (st : State) (m n : String) (f : Sym → Sym) :
    lookupSym (updateSym st m f) n =
      if m = n then (lookupSym st n).map f else lookupSym st n := by
  induction st with
  | nil =>
    unfold lookupSym updateSym
    simp only [List.map_nil]
    split <;> rfl
  | cons p rest ih =>
    obtain ⟨k, r⟩ := p
    by_cases hkm : k = m
    · subst hkm
      rw [updateSym_cons, if_pos rfl]
      by_cases hkn : k = n
      · subst hkn
        simp [lookupSym]
      · simp [lookupSym, hkn, ih]
    · rw [updateSym_cons, if_neg hkm]
      by_cases hkn : k = n
      · subst hkn
        simp [lookupSym, Ne.symm hkm]
      · simp [lookupSym, hkn, ih]

theorem getSelected_updateSym_of (st : State) (m n : String) (f : Sym → Sym)
    (hf : ∀ r, (f r).isSelected = r.isSelected) :
    getSelected (updateSym st m f) n = getSelected st n := by
  unfold getSelected
  rw [lookupSym_updateSym]
  by_cases h : m = n
  · rw [if_pos h]
    cases lookupSym st n with
    | none => rfl
    | some r => simp [hf]
  · rw [if_neg h]

theorem getSelected_updateSym_setTrue (st : State) (m n : String)
    (h : getSelected st n = true) :
    getSelected (updateSym st m (fun r => { r with isSelected := true })) n = true := by
  unfold getSelected at *
  rw [lookupSym_updateSym]
  by_cases hmn : m = n
  · rw [if_pos hmn]
    cases hl : lookupSym st n with
    | none => rw [hl] at h; simp at h
    | some r => simp
  · rw [if_neg hmn]; exact h

theorem getSelected_updateSym_self_setTrue (st : State) (m : String) (r : Sym)
    (h : lookupSym st m = some r) :
    getSelected (updateSym st m (fun x => { x with isSelected := true })) m = true := by
  unfold getSelected
  rw [lookupSym_updateSym, if_pos rfl, h]
  rfl

theorem markSelectable_cons (st : State) (d : String) (ds : List String) :
    markSelectable st (d :: ds) =
      markSelectable (updateSym st d (fun r => { r with isSelectable := true })) ds := rfl

theorem getSelected_markSelectable (st : State) (l : List String) (n : String) :
    getSelected (markSelectable st l) n = getSelected st n := by
  induction l generalizing st with
  | nil => rfl
  | cons d ds ih =>
    rw [markSelectable_cons, ih, getSelected_updateSym_of]
    intro r; rfl

theorem lookupSym_markSelectable (st : State) (l : List String) (n : String) :
    lookupSym (markSelectable st l) n =
      (lookupSym st n).map (fun r => if n ∈ l then { r with isSelectable := true } else r) := by
  induction l generalizing st with
  | nil =>
    simp only [markSelectable, List.foldl_nil, List.not_mem_nil, if_false]
    cases lookupSym st n <;> rfl
  | cons d ds ih =>
    rw [markSelectable_cons, ih, lookupSym_updateSym]
    by_cases hdn : d = n
    · subst hdn
      rw [if_pos rfl, Option.map_map]
      cases lookupSym st d with
      | none => rfl
      | some r =>
        by_cases hds : d ∈ ds <;> simp [hds]
    · rw [if_neg hdn]
      cases lookupSym st n with
      | none => rfl
      | some r =>
        simp only [Option.map_some, List.mem_cons]
        by_cases hds : n ∈ ds <;> simp [hds, Ne.symm hdn]

theorem mem_keys_of_lookupSym (st : State) (n : String) (r : Sym)
    (h : lookupSym st n = some r) : n ∈ st.map Prod.fst := by
  induction st with
  | nil => simp [lookupSym] at h
  | cons p rest ih =>
    obtain ⟨k, s⟩ := p
    by_cases hk : k = n
    · simp [hk]
    · rw [lookupSym, if_neg hk] at h
      simp [ih h]

theorem getSelected_exists_of_true (st : State) (n : String)
    (h : getSelected st n = true) :
    ∃ r, lookupSym st n = some r ∧ r.isSelected = true := by
  unfold getSelected at h
  cases hl : lookupSym st n with
  | none => rw [hl] at h; simp at h
  | some r =>
    rw [hl] at h
    exact ⟨r, rfl, h⟩

theorem foldl_preserves {α : Type} (P : State → Prop) (f : State → α → State)
    (hf : ∀ s a, P s → P (f s a)) :
    ∀ (l : List α) (s : State), P s → P (l.foldl f s) := by
  intro l
  induction l with
  | nil => intro s h; exact h
  | cons a rest ih => intro s h; exact ih (f s a) (hf s a h)

/-! Monotonicity of the selection engine. -/

theorem select_selectMany_mono (fuel : Nat) :
    (∀ st name n, getSelected st n = true → getSelected (select fuel st name) n = true) ∧
    (∀ st sels n, getSelected st n = true → getSelected (selectMany fuel st sels) n = true) := by
  induction fuel with
  | zero =>
    constructor
    · intro st name n h
      rw [select_zero]; exact h
    · intro st sels n h
      induction sels generalizing st with
      | nil => rw [selectMany_nil]; exact h
      | cons s rest ih =>
        cases s with
        | none => rw [selectMany_cons_none]; exact ih st h
        | some nm =>
          rw [selectMany_cons_some]
          apply ih
          rw [select_zero]; exact h
  | succ fuel ih =>
    have hsel : ∀ st name n, getSelected st n = true →
        getSelected (select (fuel + 1) st name) n = true := by
      intro st name n h
      rw [select_succ]
      cases hls : lookupSym st name with
      | none => exact h
      | some sym =>
        simp only
        split
        · split
          · apply ih.2
            apply getSelected_updateSym_setTrue
            rw [getSelected_markSelectable]
            exact h
          · rw [getSelected_markSelectable]; exact h
        · exact h
    refine ⟨hsel, ?_⟩
    intro st sels n h
    induction sels generalizing st with
    | nil => rw [selectMany_nil]; exact h
    | cons s rest ihl =>
      cases s with
      | none => rw [selectMany_cons_none]; exact ihl st h
      | some nm =>
        rw [selectMany_cons_some]
        exact ihl _ (hsel st nm n h)

theorem select_eq_of_no_deps (fuel : Nat) (st : State) (name : String) (sym : Sym)
    (h : lookupSym st name = some sym) (hdep : sym.dependsOn = []) :
    select (fuel + 1) st name =
      selectMany fuel
        (updateSym (markSelectable st sym.dependants) name (fun r => { r with isSelected := true }))
        sym.selects := by
  rw [select_succ, h]
  simp [hdep]

theorem select_sets_self (fuel : Nat) (st : State) (name : String) (sym : Sym)
    (h : lookupSym st name = some sym) (hdep : sym.dependsOn = []) :
    getSelected (select (fuel + 1) st name) name = true := by
  rw [select_eq_of_no_deps fuel st name sym h hdep]
  apply (select_selectMany_mono fuel).2
  apply getSelected_updateSym_self_setTrue _ _
    (if name ∈ sym.dependants then { sym with isSelectable := true } else sym)
  rw [lookupSym_markSelectable, h]
  rfl

theorem select_defaults_mono (fuel : Nat) (st : State) (n : String)
    (h : getSelected st n = true) : getSelected (select_defaults fuel st) n = true := by
  unfold select_defaults
  apply foldl_preserves (fun s => getSelected s n = true)
  · intro s name hs
    cases lookupSym s name with
    | none => exact hs
    | some sym =>
      simp only
      split
      · exact (select_selectMany_mono fuel).1 s name n hs
      · exact hs
  · exact h

theorem select_configs_mono (fuel : Nat) (clist : List String) :
    ∀ (st st' : State) (n : String), select_configs fuel st clist = some st' →
      getSelected st n = true → getSelected st' n = true := by
  induction clist with
  | nil =>
    intro st st' n h hn
    rw [select_configs] at h
    cases h
    exact hn
  | cons c rest ih =>
    intro st st' n h hn
    rw [select_configs] at h
    cases hl : lookupSym st c with
    | none => rw [hl] at h; cases h
    | some s =>
      rw [hl] at h
      exact ih _ _ _ h ((select_selectMany_mono fuel).1 st c n hn)

theorem writeSelectedLoop_mono (fuel : Nat) (keys : List String) :
    ∀ (st : State) (n : String), getSelected st n = true →
      getSelected (writeSelectedLoop fuel keys st).2 n = true := by
  induction keys with
  | nil => intro st n h; exact h
  | cons name rest ih =>
    intro st n h
    rw [writeSelectedLoop]
    cases lookupSym st name with
    | none => exact ih st n h
    | some sym =>
      simp only
      split
      · exact ih _ n ((select_selectMany_mono fuel).1 st name n h)
      · exact ih st n h

theorem writeSelectedLoop_complete (fuel : Nat) (keys : List String) :
    ∀ (st : State) (n : String), n ∈ keys → getSelected st n = true →
      configLine n ∈ (writeSelectedLoop fuel keys st).1 := by
  induction keys with
  | nil => intro st n hmem; exact absurd hmem (List.not_mem_nil n)
  | cons name rest ih =>
    intro st n hmem h
    rw [writeSelectedLoop]
    by_cases hn : n = name
    · subst hn
      obtain ⟨r, hl, hr⟩ := getSelected_exists_of_true st n h
      rw [hl]
      simp only [hr, if_true]
      exact List.mem_cons_self _ _
    · have hrest : n ∈ rest := by
        cases List.mem_cons.mp hmem with
        | inl hh => exact absurd hh hn
        | inr hh => exact hh
      cases lookupSym st name with
      | none => exact ih st n hrest h
      | some sym =>
        simp only
        split
        · exact List.mem_cons_of_mem _
            (ih _ n hrest ((select_selectMany_mono fuel).1 st name n h))
        · exact ih st n hrest h

theorem writeSelectedLoop_sound (fuel : Nat) (keys : List String) :
    ∀ (st : State) (line : String), line ∈ (writeSelectedLoop fuel keys st).1 →
      ∃ n, line = configLine n ∧ getSelected (writeSelectedLoop fuel keys st).2 n = true := by
  induction keys with
  | nil =>
    intro st line hmem
    exact absurd hmem (List.not_mem_nil line)
  | cons name rest ih =>
    intro st line hmem
    rw [writeSelectedLoop] at hmem ⊢
    cases hl : lookupSym st name with
    | none =>
      rw [hl] at hmem
      exact ih st line hmem
    | some sym =>
      rw [hl] at hmem
      dsimp only at hmem ⊢
      by_cases hs : sym.isSelected = true
      · simp only [hs, if_true] at hmem ⊢
        cases List.mem_cons.mp hmem with
        | inl hline =>
          refine ⟨name, hline, ?_⟩
          apply writeSelectedLoop_mono
          apply (select_selectMany_mono fuel).1
          unfold getSelected
          rw [hl]
          simp [hs]
        | inr hline =>
          exact ih _ line hline
      · simp only [hs, if_false] at hmem ⊢
        exact ih st line hmem

theorem writeSelectedLoop_ordered (fuel : Nat) (keys : List String) :
    ∀ st : State, ∃ names : List String,
      (writeSelectedLoop fuel keys st).1 = names.map configLine ∧
      names.Sublist keys := by
  induction keys with
  | nil =>
    intro st
    exact ⟨[], rfl, List.Sublist.refl []⟩
  | cons name rest ih =>
    intro st
    rw [writeSelectedLoop]
    cases lookupSym st name with
    | none =>
      obtain ⟨names, h1, h2⟩ := ih st
      exact ⟨names, h1, List.Sublist.cons name h2⟩
    | some sym =>
      simp only
      split
      · obtain ⟨names, h1, h2⟩ := ih (select fuel st name)
        refine ⟨name :: names, ?_, List.Sublist.cons₂ name h2⟩
        simp [h1]
      · obtain ⟨names, h1, h2⟩ := ih st
        exact ⟨names, h1, List.Sublist.cons name h2⟩

/-! Claim theorems. -/

/-- Claim C1 (code bug): the claim and the docstring of `fix_dependencies` say
that a symbol with an unselected dependency is forced to `is_selected=false`,
but `fix_dependencies_for` deselects the unselected *dependency* (a no-op)
instead of the dependant symbol: with `A` selected and its dependency `B`
unselected, `fix_dependencies` leaves `A` selected and the table unchanged. -/
theorem fix_dependencies_leaves_dependant_selected :
    getSelected stFix "B" = false ∧
    getSelected stFix "A" = true ∧
    getSelected (fix_dependencies stFix) "A" = true ∧
    fix_dependencies stFix = stFix := by
  decide

/-- Claim C2 (confirmed): when a symbol has a dependency whose `is_selected`
is false, `select` aborts with no state change at all — the symbol stays
unselected, nothing in `selects` is visited, and no `is_selectable` flag
moves. -/
theorem select_unmet_dependency_no_state_change (fuel : Nat) (st : State) (name : String)
    (sym : Sym) (hl : lookupSym st name = some sym)
    (hd : ∃ d ∈ sym.dependsOn, getSelected st d = false) :
    select fuel st name = st := by
  cases fuel with
  | zero => rw [select_zero]
  | succ fuel =>
    rw [select_succ, hl]
    have hall : sym.dependsOn.all (fun d => getSelected st d) = false := by
      obtain ⟨d, hdm, hdf⟩ := hd
      cases hc : sym.dependsOn.all (fun d => getSelected st d) with
      | false => rfl
      | true =>
        have := List.all_eq_true.mp hc d hdm
        rw [hdf] at this
        exact absurd this (by simp)
    dsimp only
    simp [hall]

/-- Witness for the C2 theorem at a concrete state. -/
theorem select_unmet_dependency_no_state_change_witness :
    select 3 stUnmet "A" = stUnmet :=
  select_unmet_dependency_no_state_change 3 stUnmet "A"
    { dependsOn := ["B"], selects := [some "C"] } (by decide)
    ⟨"B", by decide, by decide⟩

/-- Claim C3 (confirmed): for resolved symbols `A` and `B` with
`A.selects = [B]` and no dependencies on either side, `select(A)` ends with
both symbols selected — selection sets `is_selected` and then recursively
selects every symbol in the `selects` list. -/
theorem select_cascades_to_selected_symbol (fuel : Nat) (st : State) (A B : String)
    (a b : Sym) (hAB : A ≠ B)
    (ha : lookupSym st A = some a) (hadep : a.dependsOn = []) (hasel : a.selects = [some B])
    (hb : lookupSym st B = some b) (hbdep : b.dependsOn = []) :
    getSelected (select (fuel + 2) st A) A = true ∧
      getSelected (select (fuel + 2) st A) B = true := by
  have hstep : select (fuel + 2) st A =
      select (fuel + 1)
        (updateSym (markSelectable st a.dependants) A (fun r => { r with isSelected := true }))
        B := by
    rw [select_eq_of_no_deps (fuel + 1) st A a ha hadep, hasel]
    rw [selectMany_cons_some, selectMany_nil]
  have hb1 : lookupSym (markSelectable st a.dependants) B =
      some (if B ∈ a.dependants then { b with isSelectable := true } else b) := by
    rw [lookupSym_markSelectable, hb]
    rfl
  have hb2 : lookupSym
      (updateSym (markSelectable st a.dependants) A (fun r => { r with isSelected := true })) B =
      some (if B ∈ a.dependants then { b with isSelectable := true } else b) := by
    rw [lookupSym_updateSym, if_neg hAB]
    exact hb1
  have hb2dep :
      (if B ∈ a.dependants then { b with isSelectable := true } else b).dependsOn = [] := by
    by_cases hmem : B ∈ a.dependants <;> simp [hmem, hbdep]
  have ha2 : getSelected
      (updateSym (markSelectable st a.dependants) A (fun r => { r with isSelected := true }))
      A = true := by
    apply getSelected_updateSym_self_setTrue _ _
      (if A ∈ a.dependants then { a with isSelectable := true } else a)
    rw [lookupSym_markSelectable, ha]
    rfl
  constructor
  · rw [hstep]
    exact (select_selectMany_mono (fuel + 1)).1 _ B A ha2
  · rw [hstep]
    exact select_sets_self fuel _ B _ hb2 hb2dep

/-- Witness for the C3 theorem at a concrete state. -/
theorem select_cascades_to_selected_symbol_witness :
    getSelected (select 2 stCascade "A") "A" = true ∧
      getSelected (select 2 stCascade "A") "B" = true :=
  select_cascades_to_selected_symbol 0 stCascade "A" "B"
    { selects := [some "B"] } {} (by decide) (by decide) rfl rfl (by decide) rfl

/-- Claim C4 (code bug): the resolution pass is supposed to report a
self-reference diagnostic and drop the edge, but the comparison
`dep == self.name` tests against the bound method and is never true, and the
edge is appended regardless: for `A` depending on and selecting itself,
resolution reports nothing, keeps `A` in its own `depends_on` and `selects`,
and registers `A` as its own dependant. -/
theorem resolution_keeps_self_edges_without_diagnostic :
    (resolve_dependencies stSelf "A").map
        (fun p => ((lookupSym p.1 "A").map (fun r => (r.dependsOn, r.dependants)), p.2))
      = some (some (["A"], ["A"]), []) ∧
    (lookupSym (resolve_selects stSelf "A").1 "A").map Sym.selects = some [some "A"] ∧
    (resolve_selects stSelf "A").2 = [] := by
  decide

/-- Claim C5 (code bug): for a dependency name absent from the table,
`Symbol.get_symbol` prints the diagnostic but returns `None`, and
`resolve_dependencies` then calls `add_dependant` on it, raising
`AttributeError` and aborting the run (modelled as `none`); for a missing
select name the edge is not skipped either — `None` is appended into the
`selects` list. -/
theorem resolution_crashes_on_missing_dependency :
    resolve_dependencies stMissing "A" = none ∧
    resolve_symbols stMissing = none ∧
    (lookupSym (resolve_selects stMissing "A").1 "A").map Sym.selects = some [none] ∧
    (resolve_selects stMissing "A").2 = [Diag.symbolNotFound "N"] := by
  decide

/-- Claim C6 (code bug): `select_configs` is supposed to diagnose and skip a
name absent from the table, but `Symbol.get_symbol(cname)` returns `None`
after printing and the call `.select()` on it raises `AttributeError`
(modelled as `none`); a present name is selected normally. -/
theorem select_configs_crashes_on_missing_name :
    lookupSym stCascade "MISSING" = none ∧
    select_configs 2 stCascade ["MISSING"] = none ∧
    select_configs 2 stCascade ["A"] = some (select 2 stCascade "A") := by
  decide

/-- Claim C7 counterexample: parsing `default n` is not a no-op on
`is_default` — on a symbol whose flag is already true it resets the flag to
false (`make_default(False)` assigns the flag unconditionally). -/
theorem parse_default_n_clears_flag :
    symDefaultTrue.isDefault = true ∧
    (parse_default "n" symDefaultTrue).1.isDefault = false := by
  decide

/-- Claim C7 amended: `default n` always sets `is_default` to false (so it is
a no-op only when the flag is already false); starting from an unset flag,
only the token `y` can make it true; and `default y` always sets it. -/
theorem parse_default_only_y_sets_flag :
    (∀ sym : Sym, (parse_default "n" sym).1.isDefault = false) ∧
    (∀ (tok : String) (sym : Sym), sym.isDefault = false →
      (parse_default tok sym).1.isDefault = true → tok = "y") ∧
    (∀ sym : Sym, (parse_default "y" sym).1.isDefault = true) := by
  refine ⟨?_, ?_, ?_⟩
  · intro sym
    unfold parse_default
    rw [if_neg (by decide : ¬ ("n" : String) = "y"), if_pos rfl]
    rfl
  · intro tok sym h0 h1
    by_cases hty : tok = "y"
    · exact hty
    · exfalso
      unfold parse_default at h1
      rw [if_neg hty] at h1
      by_cases htn : tok = "n"
      · rw [if_pos htn] at h1
        simp [make_default] at h1
      · rw [if_neg htn] at h1
        dsimp at h1
        rw [h0] at h1
        exact Bool.false_ne_true h1
  · intro sym
    unfold parse_default
    rw [if_pos rfl]
    rfl

/-- Witness for the amended C7 theorem at concrete inputs. -/
theorem parse_default_only_y_sets_flag_witness :
    (parse_default "n" symDefaultTrue).1.isDefault = false ∧ ("y" : String) = "y" :=
  ⟨parse_default_only_y_sets_flag.1 symDefaultTrue,
   parse_default_only_y_sets_flag.2.1 "y" {} rfl (by decide)⟩

/-- Claim C8 counterexample: `parse_string` accepts a token that starts with
an apostrophe and ends with a quotation mark — a pair the claim calls
non-matching — returning its stripped content with no diagnostic and no
pushback. -/
theorem parse_string_accepts_mismatched_quotes :
    matchingQuoteDelims mismatchedTok = false ∧
    parse_string mismatchedTok = some ("a", false, []) := by
  decide

/-- Claim C8 amended: on a non-empty token, `parse_string` accepts exactly
when the first and the last character are each *some* quote character (not
necessarily the same one), returning the token stripped of its quote
characters; otherwise it emits one diagnostic, returns the empty string and
pushes the token back.  The empty token is outside the function's domain
(`s[0]` raises `IndexError`). -/
theorem parse_string_accepts_any_quote_pair (s : String) (h : s.data ≠ []) :
    parse_string s =
      if startsQuote s && endsQuote s then some (stripQuotes s, false, [])
      else if startsQuote s then some ("", true, [Diag.stringNoClose])
      else some ("", true, [Diag.stringNoOpen]) := by
  cases hs : s.data with
  | nil => exact absurd hs h
  | cons c cs =>
    unfold parse_string startsQuote endsQuote
    rw [hs]
    dsimp only
    cases h1 : isQuoteChar c <;> cases h2 : isQuoteChar ((c :: cs).getLastD c) <;> rfl

/-- Witness for the amended C8 theorem at a concrete token. -/
theorem parse_string_accepts_any_quote_pair_witness :
    parse_string "\"hi\"" =
      if startsQuote "\"hi\"" && endsQuote "\"hi\"" then some (stripQuotes "\"hi\"", false, [])
      else if startsQuote "\"hi\"" then some ("", true, [Diag.stringNoClose])
      else some ("", true, [Diag.stringNoOpen]) :=
  parse_string_accepts_any_quote_pair "\"hi\"" (by decide)

/-- Claim C9 counterexample: the writer is not a pure function of the
`is_selected` map — because it re-invokes `select()` on every selected
symbol, the cascade can select a later symbol mid-write: with `A` selected
and selecting `B`, and `B` unselected in the table handed to the writer, the
output still contains a `CONFIG_B=y` line. -/
theorem write_selected_emits_unselected_symbol :
    getSelected stWrite "B" = false ∧
    "CONFIG_B=y" ∈ (write_selected_to 2 "T" stWrite).1 := by
  decide

/-- Claim C9 amended: the output is the header line
`# Configuration '<title>'`, a blank line, and then `CONFIG_<NAME>=y` lines
for a subsequence of the symbol-table keys in table iteration order (the
`List.Sublist` conjunct: the written names occur in key order); every symbol
selected when the writer is called gets its line, and every emitted line
names a symbol that is selected in the post-write state — but symbols
selected mid-write by the re-invoked `select()` cascade are also written. -/
theorem write_selected_output_shape (fuel : Nat) (title : String) (st : State) :
    ∃ names : List String,
      (write_selected_to fuel title st).1 =
        ("# Configuration " ++ aposStr ++ title ++ aposStr) :: "" :: names.map configLine ∧
      names.Sublist (st.map Prod.fst) ∧
      (∀ n, getSelected st n = true → configLine n ∈ names.map configLine) ∧
      (∀ line ∈ names.map configLine, ∃ n, line = configLine n ∧
        getSelected (write_selected_to fuel title st).2 n = true) := by
  obtain ⟨names, h1, h2⟩ := writeSelectedLoop_ordered fuel (st.map Prod.fst) st
  refine ⟨names, ?_, h2, ?_, ?_⟩
  · show ("# Configuration " ++ aposStr ++ title ++ aposStr) ::
      "" :: (writeSelectedLoop fuel (st.map Prod.fst) st).1 = _
    rw [h1]
  · intro n hn
    rw [← h1]
    obtain ⟨r, hl, _⟩ := getSelected_exists_of_true st n hn
    exact writeSelectedLoop_complete fuel _ st n (mem_keys_of_lookupSym st n r hl) hn
  · intro line hline
    rw [← h1] at hline
    exact writeSelectedLoop_sound fuel _ st line hline

/-- Witness for the amended C9 theorem at a concrete state. -/
theorem write_selected_output_shape_witness :
    "CONFIG_A=y" ∈ (write_selected_to 2 "T" stWrite).1 := by
  obtain ⟨names, heq, hsub, hincl, hsound⟩ := write_selected_output_shape 2 "T" stWrite
  rw [heq]
  have h : configLine "A" ∈ names.map configLine := hincl "A" (by decide)
  exact List.mem_cons_of_mem _ (List.mem_cons_of_mem _ h)

/-- Claim C10 (confirmed): selection is monotone — `select`, its cascade
through `selects`, the default pass and the explicit-selection pass never
move any symbol's `is_selected` from true to false; `deselect` (the
operation dependency fixup invokes) is the one that writes false. -/
theorem selection_is_monotone :
    (∀ fuel st name n, getSelected st n = true → getSelected (select fuel st name) n = true) ∧
    (∀ fuel st sels n, getSelected st n = true → getSelected (selectMany fuel st sels) n = true) ∧
    (∀ fuel st n, getSelected st n = true → getSelected (select_defaults fuel st) n = true) ∧
    (∀ fuel st clist st' n, select_configs fuel st clist = some st' →
      getSelected st n = true → getSelected st' n = true) ∧
    (∀ r : Sym, (deselect r).isSelected = false) := by
  refine ⟨?_, ?_, ?_, ?_, ?_⟩
  · intro fuel st name n h
    exact (select_selectMany_mono fuel).1 st name n h
  · intro fuel st sels n h
    exact (select_selectMany_mono fuel).2 st sels n h
  · intro fuel st n h
    exact select_defaults_mono fuel st n h
  · intro fuel st clist st' n h hn
    exact select_configs_mono fuel clist st st' n h hn
  · intro r
    rfl

/-- Witness for the C10 theorem at concrete inputs. -/
theorem selection_is_monotone_witness :
    getSelected (select 1 stFix "B") "A" = true ∧
    getSelected (select_defaults 1 stFix) "A" = true ∧
    getSelected (select 1 stFix "A") "A" = true ∧
    (deselect {}).isSelected = false :=
  ⟨selection_is_monotone.1 1 stFix "B" "A" (by decide),
   selection_is_monotone.2.2.1 1 stFix "A" (by decide),
   selection_is_monotone.2.2.2.1 1 stFix ["A"] (select 1 stFix "A") "A" rfl (by decide),
   selection_is_monotone.2.2.2.2 {}⟩

end MiniKconfig
